import Mathlib

/-!
Verification of the aggregation-and-cache layer of the hackerhome-v2
repository: a shallow embedding in Lean 4 of the `NewsService` coordinator
(`src/lib/services/news-service.ts`), the `BaseApiClient` HTTP client
(`src/lib/api/base-client.ts`) and the `DevToClient` (`src/lib/api/devto-client.ts`),
with theorems about caching, partial-failure tolerance, filtering, sorting
and the error-surface of the client layer.

Modelling conventions:
* JavaScript `Date.now()` is an explicit `now : Int` argument (milliseconds).
* `Map<string, V>` is an association list with distinct keys; `set`
  replaces an existing binding in place, `delete` removes it.
* A source client fetch is a function `String → Except ApiError (List NewsItem)`
  giving the settled outcome of each source's private getter; the coordinator
  consumes outcomes with `Promise.allSettled` semantics, hence the embedded
  `getAggregatedNews` is a total function (rejections become error-table
  entries, they are never re-thrown).
* Numeric JS values are `Int` (only ordering and equality matter here);
  strings are Lean `String`, with `strToLower` for `toLowerCase()`.
-/

namespace HackerHome

/-- The `item.source` in the code is one of the string literals
`'hackernews' | 'devto' | 'github'`; at runtime these are plain strings and
the coordinator compares them with string operations, so we model the field
as `String`. -/
abbrev SourceId := String

/-- The shared normalized item shape (`NewsItem` in `src/lib/api/index.ts`).
Optional TS fields become `Option`. -/
structure NewsItem where
  id : Nat ⊕ String
  title : String
  url : Option String := none
  content : Option String := none
  description : Option String := none
  author : String
  authorImage : Option String := none
  authorUrl : Option String := none
  timestamp : Int
  points : Option Int := none
  reactions : Option Int := none
  stars : Option Int := none
  forks : Option Int := none
  commentCount : Option Int := none
  readingTime : Option Int := none
  language : Option String := none
  tags : Option (List String) := none
  coverImage : Option String := none
  source : SourceId
  deriving Repr, DecidableEq

/-- The `NewsSource` registry record: `{id, name, enabled}`. -/
structure NewsSource where
  id : String
  name : String
  enabled : Bool
  deriving Repr, DecidableEq

/-- The `NewsFilter`: all three fields are optional in TS. -/
structure NewsFilter where
  sources : Option (List String) := none
  search : Option String := none
  tags : Option (List String) := none
  deriving Repr, DecidableEq

/-- Aggregate-cache entry: `{data, timestamp}`. -/
structure CacheEntry where
  data : List NewsItem
  timestamp : Int
  deriving Repr, DecidableEq

/-- Per-source error record: `{message, timestamp}`. -/
structure SourceError where
  message : String
  timestamp : Int
  deriving Repr, DecidableEq

/-- The typed error of `src/lib/api/base-client.ts`:
`ApiError {status, source, retryable}` plus the inherited `message`. -/
structure ApiError where
  message : String
  status : Int
  source : String
  retryable : Bool
  deriving Repr, DecidableEq

/-! ### `Map<string, V>` as an association list -/

/-- The `Map.get`: first binding for the key, if any. -/
def mapGet (k : String) : List (String × α) → Option α
  | [] => none
  | (k', v) :: rest => if k' = k then some v else mapGet k rest

/-- The `Map.set`: replace an existing binding in place, else append. -/
def mapSet (k : String) (v : α) : List (String × α) → List (String × α)
  | [] => [(k, v)]
  | (k', v') :: rest => if k' = k then (k, v) :: rest else (k', v') :: mapSet k v rest

/-- The `Map.delete`: remove the binding for the key. -/
def mapDelete (k : String) : List (String × α) → List (String × α)
  | [] => []
  | (k', v') :: rest => if k' = k then rest else (k', v') :: mapDelete k rest

/-! ### String helpers (JS `toLowerCase` / `includes`) -/

/-- Character-list version of "starts with". -/
def headMatches : List Char → List Char → Bool
  | [], _ => true
  | _ :: _, [] => false
  | c :: cs, d :: ds => c == d && headMatches cs ds

/-- Character-list version of "occurs as a contiguous run". -/
def subSeq (q : List Char) : List Char → Bool
  | [] => q.isEmpty
  | c :: cs => headMatches q (c :: cs) || subSeq q cs

/-- JS `haystack.includes(needle)`. -/
def strIncludes (hay needle : String) : Bool :=
  subSeq needle.toList hay.toList

/-- JS `s.toLowerCase()`: character-wise `Char.toLower` (ASCII case
folding), written over the underlying character list so that it reduces
definitionally on concrete strings. -/
def strToLower (s : String) : String :=
  ⟨s.data.map Char.toLower⟩

/-! ### The stable descending-by-timestamp sort
(`allItems.sort((a, b) => b.timestamp - a.timestamp)`; JS `Array.prototype.sort`
with a numeric comparator is a stable comparison sort, modelled by stable
insertion sort on the `timestamp` key). -/

/-- Insert one item into a list already sorted descending by `timestamp`,
after any earlier item with an equal or larger key (stability). -/
def insertDesc (x : NewsItem) : List NewsItem → List NewsItem
  | [] => [x]
  | y :: ys => if y.timestamp ≤ x.timestamp then x :: y :: ys
      else y :: insertDesc x ys

/-- Stable sort, descending by `timestamp` (newest first). -/
def sortDesc : List NewsItem → List NewsItem
  | [] => []
  | x :: xs => insertDesc x (sortDesc xs)

/-! ### The `NewsService` coordinator state -/

/-- The mutable fields of the `NewsService` instance: the source registry,
the aggregate cache and the per-source error table. -/
structure ServiceState where
  sources : List NewsSource
  cache : List (String × CacheEntry)
  sourceErrors : List (String × SourceError)
  deriving Repr, DecidableEq

/-- The static initial registry of the service. -/
def defaultSources : List NewsSource :=
  [ ⟨"hackernews", "Hacker News", true⟩,
    ⟨"devto", "DEV.to", true⟩,
    ⟨"github", "GitHub", true⟩ ]

/-- Fresh `NewsService` instance. -/
def initialState : ServiceState := ⟨defaultSources, [], []⟩

/-- The `cacheDuration = 5 * 60 * 1000` milliseconds. -/
def cacheDuration : Int := 5 * 60 * 1000

/-- The three source ids the fan-out dispatches on, in code order. -/
def knownSourceIds : List String := ["hackernews", "devto", "github"]

/-- The `getSources()`: returns a (spread-copied) array of the registry and does
not touch the state. -/
def getSources (s : ServiceState) : List NewsSource × ServiceState :=
  (s.sources, s)

/-- The `updateSource(id, enabled)`: rebuild matching registry records with the
new flag, then `clearCache()` (the whole aggregate cache). -/
def updateSource (id : String) (enabled : Bool) (s : ServiceState) : ServiceState :=
  { s with
    sources := s.sources.map fun src =>
      if src.id = id then { src with enabled := enabled } else src
    cache := [] }

/-- The `getSourceError(id)`: `null` when absent; entries older than one hour are
deleted and reported as `null`; otherwise the stored message. -/
def getSourceError (now : Int) (id : String) (s : ServiceState) :
    Option String × ServiceState :=
  match mapGet id s.sourceErrors with
  | none => (none, s)
  | some err =>
    if 60 * 60 * 1000 < now - err.timestamp then
      (none, { s with sourceErrors := mapDelete id s.sourceErrors })
    else (some err.message, s)

/-- The `generateCacheKey(sources, filter)`: a JSON string of the sorted source
list, the search string defaulted to `''` and the sorted tag list. The JSON
rendering is injective on this data, so we keep the triple itself as the key
material and render it with `toString` of the sorted components. -/
def generateCacheKey (sources : List String) (filter : Option NewsFilter) : String :=
  toString (sources.mergeSort (· ≤ ·))
    ++ "|" ++ ((filter.bind (·.search)).getD "")
    ++ "|" ++ toString (((filter.bind (·.tags)).getD []).mergeSort (· ≤ ·))

/-- The `getFromCache(key)`: the entry's data when present and younger than the
TTL, else `null`. -/
def getFromCache (now : Int) (key : String) (cache : List (String × CacheEntry)) :
    Option (List NewsItem) :=
  match mapGet key cache with
  | some entry => if now - entry.timestamp < cacheDuration then some entry.data else none
  | none => none

/-- The `saveToCache(key, data)`. -/
def saveToCache (now : Int) (key : String) (data : List NewsItem)
    (cache : List (String × CacheEntry)) : List (String × CacheEntry) :=
  mapSet key ⟨data, now⟩ cache

/-- The settled outcome of one source's private getter
(`getHackerNews` / `getDevToArticles` / `getGitHubRepositories`): either its
normalized items or the `ApiError` its rejection carries. -/
abbrev FetchMap := String → Except ApiError (List NewsItem)

/-- The `enabledSources`: `filter?.sources || this.sources.filter(enabled).map(id)`.
In JS an explicit array, even an empty one, is truthy, so a present
`filter.sources` always wins. -/
def resolveSources (filter : Option NewsFilter) (s : ServiceState) : List String :=
  match filter.bind (·.sources) with
  | some srcs => srcs
  | none => (s.sources.filter (·.enabled)).map (·.id)

/-- One pass of the `results.forEach` over the settled fan-out, in the fixed
dispatch order of the code: fulfilled sources append their items and clear
their error slot, rejected sources contribute nothing and overwrite their
error slot (keyed by the rejection's `source` field). -/
def settleResults (now : Int) (fetch : FetchMap) (attempted : List String)
    (errs : List (String × SourceError)) :
    List NewsItem × List (String × SourceError) :=
  attempted.foldl
    (fun acc sid =>
      match fetch sid with
      | .ok items => (acc.1 ++ items, mapDelete sid acc.2)
      | .error e => (acc.1, mapSet e.source ⟨e.message, now⟩ acc.2))
    ([], errs)

/-- The `allItems.filter(item => enabledSources.includes(item.source))` step. -/
def filterBySource (enabledSources : List String) (items : List NewsItem) :
    List NewsItem :=
  items.filter fun item => enabledSources.contains item.source

/-- The search-filter step. `if (filter?.search)` is JS truthiness, so an
empty search string disables the filter; matching is case-insensitive
substring against title, description and content (optional fields that are
absent never match). -/
def applySearchFilter (search : Option String) (items : List NewsItem) :
    List NewsItem :=
  match search with
  | none => items
  | some q =>
    if q.isEmpty then items
    else
      items.filter fun item =>
        strIncludes (strToLower item.title) (strToLower q)
        || (match item.description with
            | some d => strIncludes (strToLower d) (strToLower q)
            | none => false)
        || (match item.content with
            | some c => strIncludes (strToLower c) (strToLower q)
            | none => false)

/-- The tag-filter step: active only for a present, non-empty tag list; an
item passes when some of its own tags, lowercased, is a member of the
filter's tag list as given (`filter.tags?.includes(tag.toLowerCase())`);
items with absent or empty tag lists never pass. -/
def applyTagFilter (tags : Option (List String)) (items : List NewsItem) :
    List NewsItem :=
  match tags with
  | none => items
  | some ts =>
    if 0 < ts.length then
      items.filter fun item =>
        match item.tags with
        | some itags => itags.any fun tag => ts.contains (strToLower tag)
        | none => false
    else items

/-- Result of one `getAggregatedNews` call: the returned list, the state
after the call and the list of sources actually fan-out-fetched over the
network (empty on the short-circuit and cache-hit paths). -/
structure AggResult where
  items : List NewsItem
  state : ServiceState
  fetched : List String
  deriving Repr, DecidableEq

/-- The `getAggregatedNews(filter)` as a total state transformer. The fan-out
uses `Promise.allSettled`, so per-source failures are folded into the error
table and the call itself never rejects. -/
def getAggregatedNews (now : Int) (fetch : FetchMap) (filter : Option NewsFilter)
    (s : ServiceState) : AggResult :=
  let enabledSources := resolveSources filter s
  if enabledSources.length = 0 then ⟨[], s, []⟩
  else
    let cacheKey := generateCacheKey enabledSources filter
    match getFromCache now cacheKey s.cache with
    | some cached => ⟨cached, s, []⟩
    | none =>
      let attempted := knownSourceIds.filter fun sid => enabledSources.contains sid
      let settled := settleResults now fetch attempted s.sourceErrors
      let afterSource := filterBySource enabledSources settled.1
      let afterSearch := applySearchFilter (filter.bind (·.search)) afterSource
      let afterTags := applyTagFilter (filter.bind (·.tags)) afterSearch
      let sortedItems := sortDesc afterTags
      ⟨sortedItems,
       { s with
         cache := saveToCache now cacheKey sortedItems s.cache
         sourceErrors := settled.2 },
       attempted⟩

/-! ### The `BaseApiClient` (`src/lib/api/base-client.ts`)

`get<T>(endpoint, params, headers, useCache, retries)` checks the client's
private cache, performs the HTTP GET, classifies the outcome, caches a
parsed 2xx body and retries retryable `ApiError`s. We model one call's
possible network outcomes with `FetchOutcome`: either the `fetch`/`json()`
call threw (a non-`ApiError` exception) or an HTTP response with a status
and a parsed body arrived. `attempts i` is the outcome of the `i`-th
physical network attempt, so the retry recursion is observable. -/

/-- Outcome of one physical network attempt. -/
inductive FetchOutcome (β : Type) where
  | thrown (message : String)
  | httpResponse (status : Nat) (statusText : String) (body : β)

/-- A client-cache entry `{data, timestamp}`; `data` has the TS type `any`,
so the value type `γ` is chosen per client. -/
structure ClientCacheEntry (γ : Type) where
  data : γ
  timestamp : Int
  deriving Repr, DecidableEq

/-- The client's private `getFromCache`. -/
def clientGetFromCache (now : Int) (key : String)
    (cache : List (String × ClientCacheEntry γ)) : Option γ :=
  match mapGet key cache with
  | some entry => if now - entry.timestamp < cacheDuration then some entry.data else none
  | none => none

/-- The client's private `saveToCache`. -/
def clientSaveToCache (now : Int) (key : String) (data : γ)
    (cache : List (String × ClientCacheEntry γ)) :
    List (String × ClientCacheEntry γ) :=
  mapSet key ⟨data, now⟩ cache

/-- The `BaseApiClient.get`. `wrap` is the (identity) injection of the parsed
body into the cache's `any` slot and `unwrap` the `as T` cast read back out;
for the plain generic client both are the identity. Returns the result (the
thrown `ApiError` in the `Except.error` case), the cache after the call and
the number of physical network attempts performed. Recursion mirrors
`return this.get(..., retries - 1)` on a retryable error with budget left:

* `fetch`/`json()` threw: the catch block wraps the non-`ApiError` exception
  as `ApiError(message, 0, source, retryable := false)` and rethrows — no
  retry branch is taken because `retryable` is `false`.
* non-ok response: `ApiError` with the response status,
  `retryable := status >= 500 || status === 429`; retried while
  `retryable && retries > 0`, else rethrown.
* ok (2xx) response: body cached (when `useCache`) and returned. -/
def baseGet (source : String) (wrap : β → γ) (unwrap : γ → Option β)
    (attempts : Nat → FetchOutcome β) (useCache : Bool) (cacheKey : String)
    (now : Int) :
    Nat → Nat → List (String × ClientCacheEntry γ) →
      Except ApiError β × List (String × ClientCacheEntry γ) × Nat
  | retries, idx, cache =>
    match (if useCache then (clientGetFromCache now cacheKey cache).bind unwrap
           else none) with
    | some d => (.ok d, cache, 0)
    | none =>
      match attempts idx with
      | .thrown msg => (.error ⟨msg, 0, source, false⟩, cache, 1)
      | .httpResponse status statusText body =>
        if 200 ≤ status ∧ status ≤ 299 then
          (.ok body,
           if useCache then clientSaveToCache now cacheKey (wrap body) cache else cache,
           1)
        else
          let retryable := decide (500 ≤ status) || decide (status = 429)
          if retryable then
            match retries with
            | r + 1 =>
              let rest := baseGet source wrap unwrap attempts useCache cacheKey now
                r (idx + 1) cache
              (rest.1, rest.2.1, rest.2.2 + 1)
            | 0 =>
              (.error ⟨"API error: " ++ toString status ++ " " ++ statusText,
                       (status : Int), source, retryable⟩, cache, 1)
          else
            (.error ⟨"API error: " ++ toString status ++ " " ++ statusText,
                     (status : Int), source, retryable⟩, cache, 1)

/-- The `buildUrl(endpoint, params)`: WHATWG resolution of the relative endpoint
against the base URL, then the query parameters in iteration order. -/
def buildUrl (baseUrl endpoint : String) (params : List (String × String)) : String :=
  match params with
  | [] => baseUrl ++ endpoint
  | _ => baseUrl ++ endpoint ++ "?"
      ++ String.intercalate "&" (params.map fun p => p.1 ++ "=" ++ p.2)

/-! ### The `DevToClient` (`src/lib/api/devto-client.ts`) -/

/-- The `user` object of a DEV.to article. -/
structure DevToUser where
  name : String
  username : String
  twitter_username : Option String
  github_username : Option String
  website_url : Option String
  profile_image : String
  deriving Repr, DecidableEq

/-- The raw wire shape `DevToArticle`. -/
structure DevToArticle where
  id : Nat
  title : String
  description : String
  published_at : String
  tag_list : List String
  slug : String
  path : String
  url : String
  canonical_url : String
  comments_count : Int
  public_reactions_count : Int
  positive_reactions_count : Int
  cover_image : Option String
  social_image : Option String
  created_at : String
  edited_at : Option String
  crossposted_at : Option String
  published : Bool
  published_timestamp : String
  reading_time_minutes : Int
  user : DevToUser
  deriving Repr, DecidableEq

/-- The normalized shape `NormalizedDevToArticle` (`source` is always
`'devto'`, kept implicit here). -/
structure NormalizedDevToArticle where
  id : Nat
  title : String
  description : String
  url : String
  author : String
  authorImage : String
  timestamp : Int
  reactions : Int
  commentCount : Int
  readingTime : Int
  tags : List String
  coverImage : Option String
  deriving Repr, DecidableEq

/-- The `normalizeArticle`; `parseEpoch` stands for the JS expression
`new Date(s).getTime() / 1000`, which the embedding keeps abstract. -/
def normalizeArticle (parseEpoch : String → Int) (a : DevToArticle) :
    NormalizedDevToArticle where
  id := a.id
  title := a.title
  description := a.description
  url := a.url
  author := a.user.name
  authorImage := a.user.profile_image
  timestamp := parseEpoch a.published_at
  reactions := a.public_reactions_count
  commentCount := a.comments_count
  readingTime := a.reading_time_minutes
  tags := a.tag_list
  coverImage := a.cover_image

/-- What the devto client's `any`-typed cache slot can hold for the
`articles` endpoint: either a raw parsed body or a normalizer output. The
code's `get` stores the parsed body, i.e. the `raw` branch. -/
inductive DevToCached where
  | raw (articles : List DevToArticle)
  | normalized (items : List NormalizedDevToArticle)
  deriving Repr, DecidableEq

/-- The `as T` cast applied to the `any` slot on a cache read of the
`articles` endpoint (a no-op at runtime; only raw bodies are ever stored
under the articles key). -/
def devtoUnwrap : DevToCached → Option (List DevToArticle)
  | .raw articles => some articles
  | .normalized _ => none

/-- The request-signature cache key of `getLatestArticles(limit)`. -/
def devtoArticlesKey (limit : Nat) : String :=
  buildUrl "https://dev.to/api/" "articles" [("per_page", toString limit)]

/-- The `DevToClient.getLatestArticles(limit)`: `get<DevToArticle[]>` with the
default `useCache = true`, `retries = 3`, then `articles.map(normalizeArticle)`
on the returned value. Its try/catch rethrows `ApiError`s unchanged (the
embedded `get` only surfaces `ApiError`s, so the catch is the identity on
errors). -/
def getLatestArticles (parseEpoch : String → Int)
    (attempts : Nat → FetchOutcome (List DevToArticle)) (now : Int)
    (cache : List (String × ClientCacheEntry DevToCached)) (limit : Nat := 30) :
    Except ApiError (List NormalizedDevToArticle)
      × List (String × ClientCacheEntry DevToCached) × Nat :=
  let r := baseGet "devto" DevToCached.raw devtoUnwrap attempts true
    (devtoArticlesKey limit) now 3 0 cache
  (r.1.map (List.map (normalizeArticle parseEpoch)), r.2.1, r.2.2)

/-! ### Helper lemmas: the association-list map -/

theorem mapGet_nil (k : String) : mapGet k ([] : List (String × α)) = none := rfl

theorem mapGet_mem {k : String} {l : List (String × α)} {v : α}
    (h : mapGet k l = some v) : (k, v) ∈ l := by
  induction l with
  | nil => simp [mapGet] at h
  | cons p rest ih =>
    obtain ⟨pk, pv⟩ := p
    rw [mapGet] at h
    by_cases hk : pk = k
    · subst hk
      rw [if_pos rfl] at h
      injection h with h
      subst h
      exact List.mem_cons_self _ _
    · simp only [if_neg hk] at h
      exact List.mem_cons_of_mem _ (ih h)

theorem mapGet_mapSet_self (k : String) (v : α) (l : List (String × α)) :
    mapGet k (mapSet k v l) = some v := by
  induction l with
  | nil => simp [mapGet, mapSet]
  | cons p rest ih =>
    rw [mapSet]
    by_cases hk : p.1 = k
    · simp [hk, mapGet]
    · simp [hk, mapGet, ih]

/-! ### Helper lemmas: the descending sort -/

/-- The sortedness predicate of claim C5: `timestamp` is non-increasing
across the list. -/
def DescByTime (l : List NewsItem) : Prop :=
  l.Pairwise fun a b => b.timestamp ≤ a.timestamp

instance : DecidablePred DescByTime := fun l =>
  List.instDecidablePairwise l

theorem insertDesc_perm (x : NewsItem) : ∀ l, (insertDesc x l).Perm (x :: l)
  | [] => by simp [insertDesc]
  | y :: ys => by
    rw [insertDesc]
    by_cases hc : y.timestamp ≤ x.timestamp
    · simp [hc]
    · simp only [hc, if_false]
      exact ((insertDesc_perm x ys).cons y).trans (List.Perm.swap x y ys)

theorem sortDesc_perm : ∀ l, (sortDesc l).Perm l
  | [] => .rfl
  | x :: xs => by
    rw [sortDesc]
    exact (insertDesc_perm x (sortDesc xs)).trans ((sortDesc_perm xs).cons x)

theorem mem_sortDesc {x : NewsItem} {l : List NewsItem} :
    x ∈ sortDesc l ↔ x ∈ l :=
  (sortDesc_perm l).mem_iff

theorem mem_insertDesc {b x : NewsItem} {l : List NewsItem} :
    b ∈ insertDesc x l ↔ b = x ∨ b ∈ l := by
  rw [(insertDesc_perm x l).mem_iff]
  simp

theorem insertDesc_sorted {x : NewsItem} {l : List NewsItem} (h : DescByTime l) :
    DescByTime (insertDesc x l) := by
  induction l with
  | nil => simp [insertDesc, DescByTime]
  | cons y ys ih =>
    rw [insertDesc]
    by_cases hc : y.timestamp ≤ x.timestamp
    · simp only [hc, if_true]
      refine List.Pairwise.cons ?_ h
      intro b hb
      rcases List.mem_cons.mp hb with hb | hb
      · exact hb ▸ hc
      · exact le_trans (List.rel_of_pairwise_cons h hb) hc
    · simp only [hc, if_false]
      refine List.Pairwise.cons ?_ (ih (List.Pairwise.of_cons h))
      intro b hb
      rcases mem_insertDesc.mp hb with hb | hb
      · exact hb ▸ le_of_not_le hc
      · exact List.rel_of_pairwise_cons h hb

theorem sortDesc_sorted : ∀ l, DescByTime (sortDesc l)
  | [] => .nil
  | _ :: xs => insertDesc_sorted (sortDesc_sorted xs)

/-! ### Helper lemmas: the filtering stages -/

theorem mem_of_mem_applySearchFilter {q : Option String} {it : NewsItem}
    {l : List NewsItem} (h : it ∈ applySearchFilter q l) : it ∈ l := by
  cases q with
  | none => exact h
  | some q =>
    rw [applySearchFilter] at h
    by_cases hq : q.isEmpty
    · simpa [hq] using h
    · simp only [hq, if_false] at h
      exact (List.mem_filter.mp h).1

theorem mem_of_mem_applyTagFilter {t : Option (List String)} {it : NewsItem}
    {l : List NewsItem} (h : it ∈ applyTagFilter t l) : it ∈ l := by
  cases t with
  | none => exact h
  | some ts =>
    rw [applyTagFilter] at h
    by_cases hl : 0 < ts.length
    · simp only [hl, if_true] at h
      exact (List.mem_filter.mp h).1
    · simpa [hl] using h

theorem mem_filterBySource {srcs : List String} {it : NewsItem}
    {l : List NewsItem} (h : it ∈ filterBySource srcs l) :
    it ∈ l ∧ it.source ∈ srcs := by
  rw [filterBySource] at h
  refine ⟨(List.mem_filter.mp h).1, ?_⟩
  have := (List.mem_filter.mp h).2
  simpa using this

/-- A successful cache read comes from a fresh stored entry. -/
theorem getFromCache_eq_some {now : Int} {key : String}
    {cache : List (String × CacheEntry)} {d : List NewsItem}
    (h : getFromCache now key cache = some d) :
    ∃ entry, mapGet key cache = some entry ∧ entry.data = d
      ∧ now - entry.timestamp < cacheDuration := by
  rw [getFromCache] at h
  split at h
  · next entry heq =>
    split at h
    · next ht => exact ⟨entry, heq, by injection h, ht⟩
    · exact absurd h (by simp)
  · exact absurd h (by simp)

/-! ### Helper lemmas: the three paths of `getAggregatedNews` -/

/-- Short-circuit path: empty resolved source set. -/
theorem getAggregatedNews_of_empty {filter : Option NewsFilter} {s : ServiceState}
    (now : Int) (fetch : FetchMap) (h : resolveSources filter s = []) :
    getAggregatedNews now fetch filter s = ⟨[], s, []⟩ := by
  rw [getAggregatedNews]
  simp [h]

/-- Cache-hit path. -/
theorem getAggregatedNews_of_hit {filter : Option NewsFilter} {s : ServiceState}
    {now : Int} {d : List NewsItem} (fetch : FetchMap)
    (hne : resolveSources filter s ≠ [])
    (hhit : getFromCache now (generateCacheKey (resolveSources filter s) filter)
      s.cache = some d) :
    getAggregatedNews now fetch filter s = ⟨d, s, []⟩ := by
  rw [getAggregatedNews]
  simp only [List.length_eq_zero]
  rw [if_neg hne, hhit]

/-- The fan-out dispatch list of one compute-path call. -/
def aggAttempted (filter : Option NewsFilter) (s : ServiceState) : List String :=
  knownSourceIds.filter fun sid => (resolveSources filter s).contains sid

/-- The sorted, filtered merge of one compute-path call. -/
def aggSorted (now : Int) (fetch : FetchMap) (filter : Option NewsFilter)
    (s : ServiceState) : List NewsItem :=
  sortDesc (applyTagFilter (filter.bind (·.tags))
    (applySearchFilter (filter.bind (·.search))
      (filterBySource (resolveSources filter s)
        (settleResults now fetch (aggAttempted filter s) s.sourceErrors).1)))

/-- Cache-miss (compute) path. -/
theorem getAggregatedNews_of_miss {filter : Option NewsFilter} {s : ServiceState}
    {now : Int} (fetch : FetchMap)
    (hne : resolveSources filter s ≠ [])
    (hmiss : getFromCache now (generateCacheKey (resolveSources filter s) filter)
      s.cache = none) :
    getAggregatedNews now fetch filter s =
      ⟨aggSorted now fetch filter s,
       { s with
         cache := saveToCache now (generateCacheKey (resolveSources filter s) filter)
           (aggSorted now fetch filter s) s.cache
         sourceErrors :=
           (settleResults now fetch (aggAttempted filter s) s.sourceErrors).2 },
       aggAttempted filter s⟩ := by
  rw [getAggregatedNews]
  simp only [List.length_eq_zero]
  rw [if_neg hne, hmiss]
  rfl

/-- A freshly stored cache entry is a hit while still inside the TTL. -/
theorem getFromCache_mapSet_self {t0 t1 : Int} (k : String) (d : List NewsItem)
    (c : List (String × CacheEntry)) (h : t1 - t0 < cacheDuration) :
    getFromCache t1 k (mapSet k ⟨d, t0⟩ c) = some d := by
  rw [getFromCache, mapGet_mapSet_self]
  exact if_pos h

/-- The items a settled source contributes: its payload on fulfilment,
nothing on rejection. -/
def okItems (fetch : FetchMap) (sid : String) : List NewsItem :=
  match fetch sid with
  | .ok items => items
  | .error _ => []

theorem settleResults_foldl_fst (now : Int) (fetch : FetchMap) :
    ∀ (attempted : List String) (acc : List NewsItem)
      (errs : List (String × SourceError)),
      (attempted.foldl
        (fun acc sid =>
          match fetch sid with
          | .ok items => (acc.1 ++ items, mapDelete sid acc.2)
          | .error e => (acc.1, mapSet e.source ⟨e.message, now⟩ acc.2))
        (acc, errs)).1 = acc ++ attempted.flatMap (okItems fetch)
  | [], acc, errs => by simp
  | sid :: rest, acc, errs => by
    rw [List.foldl_cons, List.flatMap_cons]
    cases hf : fetch sid with
    | ok items =>
      simp only [hf]
      rw [settleResults_foldl_fst now fetch rest (acc ++ items) (mapDelete sid errs)]
      simp [okItems, hf]
    | error e =>
      simp only [hf]
      rw [settleResults_foldl_fst now fetch rest acc _]
      simp [okItems, hf]

/-- The merged item list of the settle pass is the in-order concatenation of
the fulfilled sources' payloads. -/
theorem settleResults_fst (now : Int) (fetch : FetchMap)
    (attempted : List String) (errs : List (String × SourceError)) :
    (settleResults now fetch attempted errs).1 = attempted.flatMap (okItems fetch) := by
  rw [settleResults, settleResults_foldl_fst now fetch attempted [] errs]
  simp

/-! ### Concrete sample data for witnesses -/

/-- A minimal concrete `NewsItem` for witness runs. -/
def sampleItem (n : Nat) (src : String) (ts : Int)
    (tags : Option (List String) := none) : NewsItem :=
  { id := .inl n, title := "title", author := "author",
    timestamp := ts, tags := tags, source := src }

/-! ## Claim theorems -/

/-- C4: a call to `getAggregatedNews` whose filter carries an explicitly
empty `sources` list — and likewise a call with no explicit source list when
no registered source is enabled — returns the empty list immediately as a
normal (non-error) value, leaves the state untouched and performs zero
network calls and zero source-client invocations (`fetched = []`). -/
theorem getAggregatedNews_empty_short_circuit (now : Int) (fetch : FetchMap)
    (s : ServiceState) (filter : Option NewsFilter)
    (h : filter.bind (·.sources) = some []
      ∨ (filter.bind (·.sources) = none ∧ ∀ src ∈ s.sources, src.enabled = false)) :
    getAggregatedNews now fetch filter s = ⟨[], s, []⟩ := by
  apply getAggregatedNews_of_empty
  rcases h with h | ⟨h, hall⟩
  · rw [resolveSources, h]
  · rw [resolveSources, h]
    simp only [List.map_eq_nil_iff, List.filter_eq_nil_iff]
    intro src hs
    simp [hall src hs]

/-- C4 witness: concrete empty-sources call on a fresh service. -/
theorem getAggregatedNews_empty_short_circuit_witness :
    getAggregatedNews 0 (fun _ => .ok []) (some ⟨some [], none, none⟩) initialState
      = ⟨[], initialState, []⟩ :=
  getAggregatedNews_empty_short_circuit 0 (fun _ => .ok []) initialState
    (some ⟨some [], none, none⟩) (Or.inl rfl)

/-- C5: every list returned by `getAggregatedNews` has non-increasing
`timestamp` across consecutive elements (descending, newest first). The
hypothesis is the cache invariant the service maintains: every cached
aggregate was stored already sorted (lists enter the cache only through
`saveToCache` of the sorted merge). -/
theorem getAggregatedNews_sorted (now : Int) (fetch : FetchMap)
    (filter : Option NewsFilter) (s : ServiceState)
    (hwf : ∀ p ∈ s.cache, DescByTime p.2.data) :
    DescByTime (getAggregatedNews now fetch filter s).items := by
  by_cases hne : resolveSources filter s = []
  · rw [getAggregatedNews_of_empty now fetch hne]
    exact .nil
  · cases hhit : getFromCache now
        (generateCacheKey (resolveSources filter s) filter) s.cache with
    | some d =>
      rw [getAggregatedNews_of_hit fetch hne hhit]
      obtain ⟨entry, hm, hd, -⟩ := getFromCache_eq_some hhit
      subst hd
      exact hwf _ (mapGet_mem hm)
    | none =>
      rw [getAggregatedNews_of_miss fetch hne hhit]
      exact sortDesc_sorted _

/-- C5 witness: a fresh service with one source returning out-of-order
items yields a sorted result. -/
theorem getAggregatedNews_sorted_witness :
    DescByTime (getAggregatedNews 0
      (fun sid => if sid = "hackernews"
        then .ok [sampleItem 1 "hackernews" 5, sampleItem 2 "hackernews" 10]
        else .ok [])
      none initialState).items :=
  getAggregatedNews_sorted 0 _ none initialState (by simp [initialState])

/-- C2: after `updateSource id false` (disabling a source), a call to
`getAggregatedNews` with no explicit `filter.sources` never returns an item
whose `source` is that id, for every fetch outcome and every prior state —
in particular even when an aggregate for the old enabled-set had been cached
within the TTL, because `updateSource` clears the whole aggregate cache. -/
theorem getAggregatedNews_disabled_source_excluded (now : Int) (fetch : FetchMap)
    (s : ServiceState) (id : String) (filter : Option NewsFilter) (it : NewsItem)
    (hf : filter.bind (·.sources) = none)
    (hit : it ∈ (getAggregatedNews now fetch filter (updateSource id false s)).items) :
    it.source ≠ id := by
  have hres : resolveSources filter (updateSource id false s)
      = ((updateSource id false s).sources.filter (·.enabled)).map (·.id) := by
    rw [resolveSources, hf]
  have hid : id ∉ resolveSources filter (updateSource id false s) := by
    rw [hres, updateSource]
    intro hmem
    simp only [List.mem_map, List.mem_filter] at hmem
    obtain ⟨src, ⟨hsrc, hen⟩, hsid⟩ := hmem
    obtain ⟨src0, -, heq⟩ := hsrc
    by_cases h0 : src0.id = id
    · rw [if_pos h0] at heq
      rw [← heq] at hen
      simp at hen
    · rw [if_neg h0] at heq
      rw [← heq] at hsid
      exact h0 hsid
  by_cases hne : resolveSources filter (updateSource id false s) = []
  · rw [getAggregatedNews_of_empty now fetch hne] at hit
    simp at hit
  · have hmiss : getFromCache now
        (generateCacheKey (resolveSources filter (updateSource id false s)) filter)
        (updateSource id false s).cache = none := rfl
    rw [getAggregatedNews_of_miss fetch hne hmiss] at hit
    have hit2 := mem_sortDesc.mp hit
    have hit3 := mem_of_mem_applyTagFilter hit2
    have hit4 := mem_of_mem_applySearchFilter hit3
    have hsrc := (mem_filterBySource hit4).2
    intro heq
    rw [heq] at hsrc
    exact hid hsrc

/-- C2 witness: disable `github` on a fresh service; even with every source
client answering with github-tagged items, no returned item carries that
source id. -/
theorem getAggregatedNews_disabled_source_excluded_witness :
    (sampleItem 3 "hackernews" 7).source ≠ "github" :=
  getAggregatedNews_disabled_source_excluded 0
    (fun sid => .ok [sampleItem 3 sid 7, sampleItem 4 "github" 9])
    initialState "github" none (sampleItem 3 "hackernews" 7) rfl (by decide)

/-! ### C9: reference semantics of `getSources()`

The pure-state embedding above cannot see JS aliasing, and C9 is precisely
about aliasing: `return [...this.sources]` copies the ARRAY but shares the
`NewsSource` record objects it contains. This mini-model makes the
references explicit: record objects and array objects live in a heap at
numeric references, and `this.sources` is a reference to an array object
whose elements are references to record objects. -/

/-- Numeric object references. -/
abbrev JsRef := Nat

/-- Dereference: look an object up by its reference. -/
def refGet (a : JsRef) : List (JsRef × α) → Option α
  | [] => none
  | (k, v) :: rest => if k = a then some v else refGet a rest

/-- In-place mutation of an existing object (no-op on a dangling
reference). -/
def refSet (a : JsRef) (v : α) : List (JsRef × α) → List (JsRef × α)
  | [] => []
  | (k, w) :: rest => if k = a then (k, v) :: rest else (k, w) :: refSet a v rest

/-- The object heap of the registry corner of `NewsService`: the allocated
`NewsSource` record objects, the allocated array objects (element lists of
record references), the next fresh reference, and the reference held by the
`this.sources` field. -/
structure JsHeap where
  recs : List (JsRef × NewsSource)
  arrs : List (JsRef × List JsRef)
  next : JsRef
  registryArr : JsRef
  deriving Repr, DecidableEq

/-- The record values the service observes through `this.sources`. -/
def readRegistry (h : JsHeap) : List NewsSource :=
  ((refGet h.registryArr h.arrs).getD []).map
    fun r => (refGet r h.recs).getD ⟨"", "", false⟩

/-- The `getSources()` under reference semantics: `[...this.sources]`
allocates a NEW array object holding the SAME record references and returns
its reference; no record object and no field of the service is touched. -/
def getSourcesJs (h : JsHeap) : JsRef × JsHeap :=
  (h.next,
   { h with
     arrs := h.arrs ++ [(h.next, (refGet h.registryArr h.arrs).getD [])]
     next := h.next + 1 })

/-- Mutating the ARRAY the caller received: push a reference onto it. -/
def pushRef (arr elt : JsRef) (h : JsHeap) : JsHeap :=
  { h with arrs := refSet arr (((refGet arr h.arrs).getD []) ++ [elt]) h.arrs }

/-- Mutating a RECORD reached through the returned array:
`rec.enabled = b`. -/
def writeEnabled (rec : JsRef) (b : Bool) (h : JsHeap) : JsHeap :=
  { h with recs :=
      match refGet rec h.recs with
      | some src => refSet rec { src with enabled := b } h.recs
      | none => h.recs }

/-- A fresh `NewsService`'s heap: three record objects, the registry array
referring to them. -/
def initialJsHeap : JsHeap :=
  { recs := [(0, ⟨"hackernews", "Hacker News", true⟩),
             (1, ⟨"devto", "DEV.to", true⟩),
             (2, ⟨"github", "GitHub", true⟩)],
    arrs := [(3, [0, 1, 2])], next := 4, registryArr := 3 }

theorem refGet_refSet_ne {k a : JsRef} (v : α) (l : List (JsRef × α))
    (h : k ≠ a) : refGet a (refSet k v l) = refGet a l := by
  induction l with
  | nil => rfl
  | cons p rest ih =>
    rw [refSet]
    by_cases hp : p.1 = k
    · rw [if_pos hp, refGet, refGet, if_neg (hp ▸ h), if_neg (hp ▸ h)]
    · rw [if_neg hp, refGet, refGet]
      by_cases ha : p.1 = a
      · rw [if_pos ha, if_pos ha]
      · rw [if_neg ha, if_neg ha, ih]

theorem refGet_append_single_ne {k a : JsRef} (v : α) (l : List (JsRef × α))
    (h : k ≠ a) : refGet a (l ++ [(k, v)]) = refGet a l := by
  induction l with
  | nil => simp [refGet, h]
  | cons p rest ih =>
    rw [List.cons_append, refGet, refGet]
    by_cases ha : p.1 = a
    · rw [if_pos ha, if_pos ha]
    · rw [if_neg ha, if_neg ha, ih]

theorem refGet_append_single_fresh {k : JsRef} (v : α) (l : List (JsRef × α))
    (h : ∀ p ∈ l, p.1 ≠ k) : refGet k (l ++ [(k, v)]) = some v := by
  induction l with
  | nil => simp [refGet]
  | cons p rest ih =>
    rw [List.cons_append, refGet,
      if_neg (h p (List.mem_cons_self p rest))]
    exact ih fun q hq => h q (List.mem_cons_of_mem p hq)

/-- C9 counterexample: `getSources()` copies only the array. On a fresh
service, the returned array is a new object, but it holds the registry's own
record references; writing `enabled := false` through the third record
reference obtained from the returned array — with NO call to
`updateSource` — changes what the service's registry observes, refuting the
claim that the records cannot be mutated from outside and that the registry
changes only through `updateSource`. -/
theorem getSources_shared_record_mutation_counterexample :
    (getSourcesJs initialJsHeap).1 ≠ initialJsHeap.registryArr
    ∧ refGet (getSourcesJs initialJsHeap).1 (getSourcesJs initialJsHeap).2.arrs
        = some [0, 1, 2]
    ∧ readRegistry (getSourcesJs initialJsHeap).2 = readRegistry initialJsHeap
    ∧ readRegistry initialJsHeap
        = [⟨"hackernews", "Hacker News", true⟩, ⟨"devto", "DEV.to", true⟩,
           ⟨"github", "GitHub", true⟩]
    ∧ readRegistry (writeEnabled
        (((refGet (getSourcesJs initialJsHeap).1
            (getSourcesJs initialJsHeap).2.arrs).getD []).getD 2 0)
        false (getSourcesJs initialJsHeap).2)
        = [⟨"hackernews", "Hacker News", true⟩, ⟨"devto", "DEV.to", true⟩,
           ⟨"github", "GitHub", false⟩] := by
  refine ⟨by decide, by decide, by decide, by decide, by decide⟩

/-- C9 amended: `getSources` returns a fresh ARRAY — mutating the returned
array itself (pushing a reference onto it) never changes the registry the
service observes, and within the service's own operations the registry
component changes only through `updateSource` (`getSources`,
`getAggregatedNews` and `getSourceError` all leave it untouched). The array
however shares the `NewsSource` record objects with the registry
(`refGet` of the fresh array yields exactly the registry's element
references), so record fields are mutable from outside, as the
counterexample shows. -/
theorem getSources_fresh_array_shared_records (s : ServiceState) (h : JsHeap)
    (elt : JsRef) (now : Int) (fetch : FetchMap) (filter : Option NewsFilter)
    (nid : String)
    (harr : ∀ p ∈ h.arrs, p.1 < h.next)
    (hreg : h.registryArr < h.next) :
    (getSources s).1 = s.sources
    ∧ (getSources s).2 = s
    ∧ (getAggregatedNews now fetch filter s).state.sources = s.sources
    ∧ ((getSourceError now nid s).2).sources = s.sources
    ∧ readRegistry (pushRef (getSourcesJs h).1 elt (getSourcesJs h).2)
        = readRegistry h
    ∧ refGet (getSourcesJs h).1 (getSourcesJs h).2.arrs
        = some ((refGet h.registryArr h.arrs).getD []) := by
  have hne : h.registryArr ≠ h.next := Nat.ne_of_lt hreg
  have hne' : h.next ≠ h.registryArr := fun e => hne e.symm
  refine ⟨rfl, rfl, ?_, ?_, ?_, ?_⟩
  · by_cases hempty : resolveSources filter s = []
    · rw [getAggregatedNews_of_empty now fetch hempty]
    · cases hhit : getFromCache now
          (generateCacheKey (resolveSources filter s) filter) s.cache with
      | some d => rw [getAggregatedNews_of_hit fetch hempty hhit]
      | none => rw [getAggregatedNews_of_miss fetch hempty hhit]
  · rw [getSourceError]
    rcases mapGet nid s.sourceErrors with _ | err
    · rfl
    · by_cases hh : 60 * 60 * 1000 < now - err.timestamp
      · simp only [hh, if_true]
      · simp only [hh, if_false]
  · rw [pushRef, getSourcesJs, readRegistry, readRegistry]
    dsimp only
    rw [refGet_refSet_ne _ _ hne', refGet_append_single_ne _ _ hne']
  · rw [getSourcesJs]
    dsimp only
    exact refGet_append_single_fresh _ h.arrs
      fun p hp => Nat.ne_of_lt (harr p hp)

/-- C9 amended witness: the fresh service's heap, pushing the reference `0`
onto the returned array. -/
theorem getSources_fresh_array_shared_records_witness :
    (getSources initialState).1 = initialState.sources
    ∧ (getSources initialState).2 = initialState
    ∧ (getAggregatedNews 0 (fun _ => .ok []) none initialState).state.sources
        = initialState.sources
    ∧ ((getSourceError 0 "devto" initialState).2).sources = initialState.sources
    ∧ readRegistry (pushRef (getSourcesJs initialJsHeap).1 0
        (getSourcesJs initialJsHeap).2) = readRegistry initialJsHeap
    ∧ refGet (getSourcesJs initialJsHeap).1 (getSourcesJs initialJsHeap).2.arrs
        = some ((refGet initialJsHeap.registryArr initialJsHeap.arrs).getD []) :=
  getSources_fresh_array_shared_records initialState initialJsHeap 0 0
    (fun _ => .ok []) none "devto" (by decide) (by decide)

/-- C3: two `getAggregatedNews` calls with the same filter, no intervening
toggle, the second within the TTL of the first, perform at most one network
fan-out in total: starting from a state with no fresh aggregate for the key
(so the first call is the one allowed fan-out), the second call fetches from
no source client at all (`fetched = []`), returns exactly the list the first
call cached and leaves the state unchanged — for every outcome function
`fetch2` of the would-be second fan-out. -/
theorem getAggregatedNews_second_call_cached (t0 t1 : Int)
    (fetch fetch2 : FetchMap) (filter : Option NewsFilter) (s : ServiceState)
    (hmiss : getFromCache t0 (generateCacheKey (resolveSources filter s) filter)
      s.cache = none)
    (h1 : t1 - t0 < cacheDuration) :
    (getAggregatedNews t1 fetch2 filter
        (getAggregatedNews t0 fetch filter s).state).items
      = (getAggregatedNews t0 fetch filter s).items
    ∧ (getAggregatedNews t1 fetch2 filter
        (getAggregatedNews t0 fetch filter s).state).fetched = []
    ∧ (getAggregatedNews t1 fetch2 filter
        (getAggregatedNews t0 fetch filter s).state).state
      = (getAggregatedNews t0 fetch filter s).state := by
  by_cases hne : resolveSources filter s = []
  · rw [getAggregatedNews_of_empty t0 fetch hne]
    have e2 := getAggregatedNews_of_empty t1 fetch2 hne
    exact ⟨congrArg AggResult.items e2, congrArg AggResult.fetched e2,
      congrArg AggResult.state e2⟩
  · have hhit2 : getFromCache t1
        (generateCacheKey (resolveSources filter s) filter)
        (saveToCache t0 (generateCacheKey (resolveSources filter s) filter)
          (aggSorted t0 fetch filter s) s.cache)
        = some (aggSorted t0 fetch filter s) :=
      getFromCache_mapSet_self _ _ _ h1
    have e2 := @getAggregatedNews_of_hit filter
      { s with
        cache := saveToCache t0 (generateCacheKey (resolveSources filter s) filter)
          (aggSorted t0 fetch filter s) s.cache
        sourceErrors :=
          (settleResults t0 fetch (aggAttempted filter s) s.sourceErrors).2 }
      t1 (aggSorted t0 fetch filter s) fetch2 hne hhit2
    rw [getAggregatedNews_of_miss fetch hne hmiss]
    dsimp only
    rw [e2]
    exact ⟨rfl, rfl, rfl⟩

/-- C3 witness: fresh service, no filter, second call 10 seconds later. -/
theorem getAggregatedNews_second_call_cached_witness :
    (getAggregatedNews 10000 (fun _ => .ok []) none
        (getAggregatedNews 0 (fun sid => .ok [sampleItem 1 sid 3]) none
          initialState).state).items
      = (getAggregatedNews 0 (fun sid => .ok [sampleItem 1 sid 3]) none
          initialState).items
    ∧ (getAggregatedNews 10000 (fun _ => .ok []) none
        (getAggregatedNews 0 (fun sid => .ok [sampleItem 1 sid 3]) none
          initialState).state).fetched = []
    ∧ (getAggregatedNews 10000 (fun _ => .ok []) none
        (getAggregatedNews 0 (fun sid => .ok [sampleItem 1 sid 3]) none
          initialState).state).state
      = (getAggregatedNews 0 (fun sid => .ok [sampleItem 1 sid 3]) none
          initialState).state :=
  getAggregatedNews_second_call_cached 0 10000 _ _ none initialState rfl (by decide)

/-- C10: an explicit non-empty `filter.sources` list fully overrides the
registry's enabled flags. For every registry state: the fan-out dispatches
exactly to the known sources named in the list (so a named source is fetched
even when disabled and an unnamed one is never fetched even when enabled),
and — with no further search/tag filter — an item returned by a named
source's fulfilled fetch, tagged with that source, appears in the result. -/
theorem getAggregatedNews_explicit_sources_override (now : Int) (fetch : FetchMap)
    (s : ServiceState) (fs : List String) (search : Option String)
    (tags : Option (List String)) (x : String) (it : NewsItem) (l : List NewsItem)
    (hne : fs ≠ [])
    (hmiss : getFromCache now (generateCacheKey fs (some ⟨some fs, search, tags⟩))
      s.cache = none) :
    (getAggregatedNews now fetch (some ⟨some fs, search, tags⟩) s).fetched
      = knownSourceIds.filter (fun sid => fs.contains sid)
    ∧ (x ∈ (getAggregatedNews now fetch (some ⟨some fs, search, tags⟩) s).fetched
        ↔ x ∈ knownSourceIds ∧ x ∈ fs)
    ∧ (search = none → tags = none → x ∈ knownSourceIds → x ∈ fs →
        fetch x = .ok l → it ∈ l → it.source = x →
        it ∈ (getAggregatedNews now fetch (some ⟨some fs, search, tags⟩) s).items) := by
  have hres : resolveSources (some ⟨some fs, search, tags⟩) s = fs := rfl
  have hne' : resolveSources (some ⟨some fs, search, tags⟩) s ≠ [] := by
    rw [hres]; exact hne
  rw [getAggregatedNews_of_miss fetch hne' (by rw [hres]; exact hmiss)]
  refine ⟨rfl, ?_, ?_⟩
  · rw [aggAttempted, hres]
    simp [List.mem_filter, List.elem_iff]
  · intro hsearch htags hxk hxf hfx hitl hsrc
    subst hsearch; subst htags
    show it ∈ aggSorted now fetch (some ⟨some fs, none, none⟩) s
    rw [aggSorted]
    apply mem_sortDesc.mpr
    show it ∈ filterBySource (resolveSources (some ⟨some fs, none, none⟩) s)
      (settleResults now fetch (aggAttempted (some ⟨some fs, none, none⟩) s)
        s.sourceErrors).1
    rw [filterBySource]
    apply List.mem_filter.mpr
    constructor
    · rw [settleResults_fst]
      have hxa : x ∈ aggAttempted (some ⟨some fs, none, none⟩) s := by
        rw [aggAttempted]
        apply List.mem_filter.mpr
        refine ⟨hxk, ?_⟩
        rw [hres]
        exact List.elem_iff.mpr hxf
      have hok : it ∈ okItems fetch x := by
        simp only [okItems, hfx]
        exact hitl
      exact List.mem_flatMap_of_mem hxa hok
    · rw [hres, hsrc]
      simp [List.elem_iff, hxf]

/-- C10 witness: `devto` disabled in the registry but named in the explicit
list — it is fetched and its item is returned; `github` enabled but unnamed —
it is not fetched. -/
theorem getAggregatedNews_explicit_sources_override_witness :
    ((getAggregatedNews 0 (fun _ => .ok [sampleItem 5 "devto" 4])
        (some ⟨some ["devto"], none, none⟩)
        ⟨[⟨"hackernews", "Hacker News", true⟩, ⟨"devto", "DEV.to", false⟩,
          ⟨"github", "GitHub", true⟩], [], []⟩).fetched
      = knownSourceIds.filter (fun sid => (["devto"] : List String).contains sid)
    ∧ ("devto" ∈ (getAggregatedNews 0 (fun _ => .ok [sampleItem 5 "devto" 4])
        (some ⟨some ["devto"], none, none⟩)
        ⟨[⟨"hackernews", "Hacker News", true⟩, ⟨"devto", "DEV.to", false⟩,
          ⟨"github", "GitHub", true⟩], [], []⟩).fetched
        ↔ "devto" ∈ knownSourceIds ∧ "devto" ∈ (["devto"] : List String))
    ∧ ((none : Option String) = none → (none : Option (List String)) = none →
        "devto" ∈ knownSourceIds → "devto" ∈ (["devto"] : List String) →
        (fun (_ : String) => (.ok [sampleItem 5 "devto" 4] :
          Except ApiError (List NewsItem))) "devto" = .ok [sampleItem 5 "devto" 4] →
        sampleItem 5 "devto" 4 ∈ [sampleItem 5 "devto" 4] →
        (sampleItem 5 "devto" 4).source = "devto" →
        sampleItem 5 "devto" 4 ∈ (getAggregatedNews 0
          (fun _ => .ok [sampleItem 5 "devto" 4])
          (some ⟨some ["devto"], none, none⟩)
          ⟨[⟨"hackernews", "Hacker News", true⟩, ⟨"devto", "DEV.to", false⟩,
            ⟨"github", "GitHub", true⟩], [], []⟩).items)) :=
  getAggregatedNews_explicit_sources_override 0 _ _ ["devto"] none none "devto"
    (sampleItem 5 "devto" 4) [sampleItem 5 "devto" 4] (by decide) rfl

/-- C1: with all three sources enabled and no fresh cache entry, when
exactly one source's fetch rejects and the other two fulfil (their items
carrying their own source tag, as the normalizers guarantee), the returned
list is a permutation of the concatenation of the two fulfilled sources'
items (non-empty whenever one of them returned items), and the error table
afterwards holds exactly one entry, keyed by the failing source's id. The
failure is never re-thrown past the coordinator: `getAggregatedNews` is a
total function into `AggResult` (the `Promise.allSettled` fan-out turns
every rejection into an error-table entry), so this theorem needs no
exception-free side condition at all. -/
theorem getAggregatedNews_one_failed_source (now : Int) (fetch : FetchMap)
    (s : ServiceState) (f : String) (e : ApiError)
    (henabled : resolveSources none s = knownSourceIds)
    (hmiss : getFromCache now (generateCacheKey knownSourceIds none) s.cache = none)
    (herr : s.sourceErrors = [])
    (hf : f ∈ knownSourceIds)
    (hfe : fetch f = .error e) (hes : e.source = f)
    (hok : ∀ x ∈ knownSourceIds, x ≠ f → ∃ items, fetch x = .ok items)
    (htag : ∀ x ∈ knownSourceIds, ∀ it ∈ okItems fetch x, it.source = x) :
    (getAggregatedNews now fetch none s).items.Perm
        ((knownSourceIds.filter (· != f)).flatMap (okItems fetch))
    ∧ (getAggregatedNews now fetch none s).state.sourceErrors
        = [(f, ⟨e.message, now⟩)]
    ∧ ((∃ x ∈ knownSourceIds, x ≠ f ∧ okItems fetch x ≠ []) →
        (getAggregatedNews now fetch none s).items ≠ []) := by
  have hne : resolveSources none s ≠ [] := by
    rw [henabled]
    decide
  have hmiss' : getFromCache now
      (generateCacheKey (resolveSources none s) none) s.cache = none := by
    rw [henabled]
    exact hmiss
  rw [getAggregatedNews_of_miss fetch hne hmiss']
  have hatt : aggAttempted none s = knownSourceIds := by
    rw [aggAttempted, henabled]
    decide
  have hmerge : (settleResults now fetch (aggAttempted none s) s.sourceErrors).1
      = knownSourceIds.flatMap (okItems fetch) := by
    rw [settleResults_fst, hatt]
  have hitems : aggSorted now fetch none s
      = sortDesc (knownSourceIds.flatMap (okItems fetch)) := by
    rw [aggSorted]
    show sortDesc (filterBySource (resolveSources none s)
      (settleResults now fetch (aggAttempted none s) s.sourceErrors).1) = _
    rw [hmerge, filterBySource, List.filter_eq_self.mpr]
    intro it hit
    obtain ⟨x, hx, hitx⟩ := List.mem_flatMap.mp hit
    rw [henabled, htag x hx it hitx]
    exact List.elem_iff.mpr hx
  have hflat : knownSourceIds.flatMap (okItems fetch)
      = (knownSourceIds.filter (· != f)).flatMap (okItems fetch) := by
    have hoff : okItems fetch f = [] := by
      simp only [okItems, hfe]
    rcases (by simpa [knownSourceIds] using hf : f = "hackernews" ∨ f = "devto"
        ∨ f = "github") with hc | hc | hc <;>
      (subst hc
       simp [knownSourceIds, List.flatMap_cons, hoff])
  refine ⟨?_, ?_, ?_⟩
  · dsimp only
    rw [hitems, hflat]
    exact sortDesc_perm _
  · dsimp only
    rw [settleResults, hatt, herr]
    rcases (by simpa [knownSourceIds] using hf : f = "hackernews" ∨ f = "devto"
        ∨ f = "github") with hc | hc | hc
    · subst hc
      obtain ⟨l₂, h₂⟩ := hok "devto" (by decide) (by decide)
      obtain ⟨l₃, h₃⟩ := hok "github" (by decide) (by decide)
      simp [knownSourceIds, hfe, h₂, h₃, hes, mapSet, mapDelete]
    · subst hc
      obtain ⟨l₁, h₁⟩ := hok "hackernews" (by decide) (by decide)
      obtain ⟨l₃, h₃⟩ := hok "github" (by decide) (by decide)
      simp [knownSourceIds, hfe, h₁, h₃, hes, mapSet, mapDelete]
    · subst hc
      obtain ⟨l₁, h₁⟩ := hok "hackernews" (by decide) (by decide)
      obtain ⟨l₂, h₂⟩ := hok "devto" (by decide) (by decide)
      simp [knownSourceIds, hfe, h₁, h₂, hes, mapSet, mapDelete]
  · dsimp only
    rintro ⟨x, hxk, hxf, hxe⟩
    obtain ⟨it, hit⟩ := List.exists_mem_of_ne_nil _ hxe
    have hx2 : x ∈ knownSourceIds.filter (· != f) :=
      List.mem_filter.mpr ⟨hxk, by simpa using hxf⟩
    have hmem : it ∈ (knownSourceIds.filter (· != f)).flatMap (okItems fetch) :=
      List.mem_flatMap_of_mem hx2 hit
    rw [hitems, hflat]
    exact List.ne_nil_of_mem ((sortDesc_perm _).mem_iff.mpr hmem)

/-- C1 witness: fresh all-enabled service, `devto` rejecting, the other two
sources fulfilling with one item each. -/
theorem getAggregatedNews_one_failed_source_witness :
    ((getAggregatedNews 0
        (fun sid => if sid = "devto"
          then .error ⟨"API error: 503 Service Unavailable", 503, "devto", true⟩
          else .ok [sampleItem 1 sid 3])
        none initialState).items.Perm
      ((knownSourceIds.filter (· != "devto")).flatMap
        (okItems (fun sid => if sid = "devto"
          then .error ⟨"API error: 503 Service Unavailable", 503, "devto", true⟩
          else .ok [sampleItem 1 sid 3])))
    ∧ (getAggregatedNews 0
        (fun sid => if sid = "devto"
          then .error ⟨"API error: 503 Service Unavailable", 503, "devto", true⟩
          else .ok [sampleItem 1 sid 3])
        none initialState).state.sourceErrors
      = [("devto", ⟨"API error: 503 Service Unavailable", 0⟩)]
    ∧ ((∃ x ∈ knownSourceIds, x ≠ "devto"
          ∧ okItems (fun sid => if sid = "devto"
              then .error ⟨"API error: 503 Service Unavailable", 503, "devto", true⟩
              else .ok [sampleItem 1 sid 3]) x ≠ []) →
        (getAggregatedNews 0
          (fun sid => if sid = "devto"
            then .error ⟨"API error: 503 Service Unavailable", 503, "devto", true⟩
            else .ok [sampleItem 1 sid 3])
          none initialState).items ≠ [])) :=
  getAggregatedNews_one_failed_source 0 _ initialState "devto"
    ⟨"API error: 503 Service Unavailable", 503, "devto", true⟩
    rfl rfl rfl (by decide) rfl rfl
    (by intro x hx hne; exact ⟨[sampleItem 1 x 3], by simp [hne]⟩)
    (by
      intro x hx it hit
      rcases (by simpa [knownSourceIds] using hx : x = "hackernews" ∨ x = "devto"
          ∨ x = "github") with hc | hc | hc <;>
        (subst hc
         simp only [okItems] at hit) <;> simp_all [sampleItem])

/-! ### C6: the tag filter -/

/-- Spec-side predicate, written from the claim's words (NOT from the code):
the item's tag set intersects the filter's tag set under case normalization
of BOTH sides; items without tags never match. Used only to compare the
claim against the code's `applyTagFilter`. -/
def specTagMatch (filterTags : List String) (it : NewsItem) : Bool :=
  match it.tags with
  | some itags => itags.any fun t => filterTags.any fun ft => strToLower ft = strToLower t
  | none => false

/-- Membership characterization of the code's tag stage for a non-empty
filter tag list: an item passes iff some of its own tags, lowercased, is
literally a member of the filter's tag list (which is compared verbatim). -/
theorem mem_applyTagFilter_some {ts : List String} {l : List NewsItem}
    {it : NewsItem} (hts : ts ≠ []) :
    it ∈ applyTagFilter (some ts) l
      ↔ it ∈ l ∧ ∃ itags, it.tags = some itags
          ∧ itags.any (fun t => ts.contains (strToLower t)) = true := by
  have hlen : 0 < ts.length := List.length_pos.mpr hts
  show it ∈ (if 0 < ts.length
      then l.filter fun item =>
        match item.tags with
        | some itags => itags.any fun tag => ts.contains (strToLower tag)
        | none => false
      else l) ↔ _
  rw [if_pos hlen, List.mem_filter]
  cases htags : it.tags with
  | some itags => simp [htags]
  | none => simp [htags]

/-- C6 counterexample: the code lowercases only the item's tags and compares
them against the filter's tags verbatim, so with filter tags `["RUST"]` and
an item tagged `["Rust"]` the claim's both-sides case normalization predicts
the item is kept, yet the call returns the empty list — while the identical
call without the tag filter does return the item, so it is the tag stage
that dropped it. -/
theorem tag_filter_case_normalization_counterexample :
    specTagMatch ["RUST"] (sampleItem 6 "devto" 4 (some ["Rust"])) = true
    ∧ (getAggregatedNews 0 (fun _ => .ok [sampleItem 6 "devto" 4 (some ["Rust"])])
        (some ⟨some ["devto"], none, some ["RUST"]⟩) initialState).items = []
    ∧ (getAggregatedNews 0 (fun _ => .ok [sampleItem 6 "devto" 4 (some ["Rust"])])
        (some ⟨some ["devto"], none, none⟩) initialState).items
      = [sampleItem 6 "devto" 4 (some ["Rust"])] := by
  refine ⟨by decide, by decide, by decide⟩

/-- C6 amended: on a compute-path call with a non-empty tag filter, an item
is in the result iff it is in the merged, source- and search-filtered pool
AND some of its own tags, lowercased, is literally a member of the filter's
tag list as given (the filter's tags themselves are not case-normalized);
items with absent or empty tag sets are always excluded. -/
theorem getAggregatedNews_tag_filter (now : Int) (fetch : FetchMap)
    (s : ServiceState) (srcs : Option (List String)) (search : Option String)
    (ts : List String) (it : NewsItem)
    (hts : ts ≠ [])
    (hne : resolveSources (some ⟨srcs, search, some ts⟩) s ≠ [])
    (hmiss : getFromCache now
      (generateCacheKey (resolveSources (some ⟨srcs, search, some ts⟩) s)
        (some ⟨srcs, search, some ts⟩)) s.cache = none) :
    it ∈ (getAggregatedNews now fetch (some ⟨srcs, search, some ts⟩) s).items
      ↔ (it ∈ applySearchFilter search
            (filterBySource (resolveSources (some ⟨srcs, search, some ts⟩) s)
              (settleResults now fetch (aggAttempted (some ⟨srcs, search, some ts⟩) s)
                s.sourceErrors).1)
          ∧ ∃ itags, it.tags = some itags
              ∧ itags.any (fun t => ts.contains (strToLower t)) = true) := by
  rw [getAggregatedNews_of_miss fetch hne hmiss]
  dsimp only
  rw [aggSorted]
  show it ∈ sortDesc (applyTagFilter (some ts) (applySearchFilter search
    (filterBySource (resolveSources (some ⟨srcs, search, some ts⟩) s)
      (settleResults now fetch (aggAttempted (some ⟨srcs, search, some ts⟩) s)
        s.sourceErrors).1))) ↔ _
  rw [mem_sortDesc, mem_applyTagFilter_some hts]

/-- C6 amended witness: filter tags `["rust"]` with an item tagged `["Rust"]`
— the lowercased item tag matches the filter tag verbatim and the item is
kept. -/
theorem getAggregatedNews_tag_filter_witness :
    sampleItem 6 "devto" 4 (some ["Rust"]) ∈
      (getAggregatedNews 0 (fun _ => .ok [sampleItem 6 "devto" 4 (some ["Rust"])])
        (some ⟨some ["devto"], none, some ["rust"]⟩) initialState).items
    ↔ (sampleItem 6 "devto" 4 (some ["Rust"]) ∈ applySearchFilter none
          (filterBySource (resolveSources
              (some ⟨some ["devto"], none, some ["rust"]⟩) initialState)
            (settleResults 0 (fun _ => .ok [sampleItem 6 "devto" 4 (some ["Rust"])])
              (aggAttempted (some ⟨some ["devto"], none, some ["rust"]⟩) initialState)
              initialState.sourceErrors).1)
        ∧ ∃ itags, (sampleItem 6 "devto" 4 (some ["Rust"])).tags = some itags
            ∧ itags.any (fun t => (["rust"] : List String).contains (strToLower t)) = true) :=
  getAggregatedNews_tag_filter 0 _ initialState (some ["devto"]) none ["rust"]
    (sampleItem 6 "devto" 4 (some ["Rust"])) (by decide) (by decide) rfl

/-! ### C7: transport failures at the base client -/

/-- C7 counterexample: a transport failure (the `fetch` itself throws, here
on every attempt) with a full retry budget of 3 surfaces after exactly ONE
network attempt as an `ApiError` with `status = 0` and `retryable = false` —
not, as claimed, `retryable = true` with retries like a 429/5xx outcome. -/
theorem transport_error_not_retried_counterexample :
    baseGet (β := List DevToArticle) (γ := List DevToArticle) "devto"
        (fun b => b) some (fun _ => .thrown "fetch failed") true
        "https://dev.to/api/articles?per_page=30" 0 3 0 []
      = (.error ⟨"fetch failed", 0, "devto", false⟩, [], 1) := rfl

/-- C7 amended: whenever the physical attempt throws (network/transport
failure), `BaseApiClient.get` surfaces `ApiError` with `status = 0`,
`retryable = false`, and does NOT retry — exactly one network attempt is
consumed, for any remaining retry budget. (Only `ApiError`s with
`retryable = true`, i.e. 429/5xx responses, enter the retry branch.) -/
theorem transport_error_surfaces_nonretryable {β γ : Type}
    (source msg key : String) (now : Int) (useCache : Bool) (retries idx : Nat)
    (cache : List (String × ClientCacheEntry γ)) (wrap : β → γ)
    (unwrap : γ → Option β) (attempts : Nat → FetchOutcome β)
    (hmiss : (if useCache then (clientGetFromCache now key cache).bind unwrap
      else none) = none)
    (hatt : attempts idx = .thrown msg) :
    baseGet source wrap unwrap attempts useCache key now retries idx cache
      = (.error ⟨msg, 0, source, false⟩, cache, 1) := by
  rw [baseGet]
  rw [hmiss, hatt]

/-- C7 amended witness: concrete transport failure with budget 3. -/
theorem transport_error_surfaces_nonretryable_witness :
    baseGet (β := List DevToArticle) (γ := List DevToArticle) "devto"
        (fun b => b) some (fun _ => .thrown "network down") true "k" 5 3 0 []
      = (.error ⟨"network down", 0, "devto", false⟩, [], 1) :=
  transport_error_surfaces_nonretryable "devto" "network down" "k" 5 true 3 0 []
    (fun b => b) some (fun _ => .thrown "network down") rfl rfl

/-- By contrast, a retryable HTTP outcome (here 503 on every attempt) with
budget 3 consumes all four attempts and surfaces `retryable = true` — the
retry branch the claim expected for transport failures exists, but only for
`ApiError`s born retryable. -/
theorem http_503_retried_until_budget_exhausted :
    baseGet (β := List DevToArticle) (γ := List DevToArticle) "devto"
        (fun b => b) some (fun _ => .httpResponse 503 "Service Unavailable" [])
        true "k" 0 3 0 []
      = (.error ⟨"API error: 503 Service Unavailable", 503, "devto", true⟩,
         [], 4) := rfl

/-! ### C8: what the devto client caches -/

/-- Discriminator for what kind of value sits in the client cache's
`any`-typed `data` slot. -/
def isNormalizedSlot : DevToCached → Bool
  | .normalized _ => true
  | .raw _ => false

/-- A concrete raw DEV.to article for client-cache runs. -/
def sampleArticle : DevToArticle :=
  { id := 1, title := "T", description := "D",
    published_at := "2024-01-01T00:00:00Z", tag_list := ["rust"],
    slug := "t", path := "/ann/t", url := "https://dev.to/ann/t",
    canonical_url := "https://dev.to/ann/t", comments_count := 2,
    public_reactions_count := 3, positive_reactions_count := 3,
    cover_image := none, social_image := none, created_at := "2024-01-01",
    edited_at := none, crossposted_at := none, published := true,
    published_timestamp := "2024-01-01T00:00:00Z", reading_time_minutes := 4,
    user := ⟨"Ann", "ann", none, none, none, "img"⟩ }

/-- C8 counterexample: after a successful (2xx) `getLatestArticles` fetch,
the value stored under the request-signature key is the RAW parsed body, not
the normalizer's output — the claim predicted a normalized slot. -/
theorem devto_cache_stores_raw_counterexample :
    mapGet (devtoArticlesKey 30)
        (getLatestArticles (fun _ => 0)
          (fun _ => .httpResponse 200 "OK" [sampleArticle]) 0 [] 30).2.1
      = some ⟨.raw [sampleArticle], 0⟩
    ∧ isNormalizedSlot (DevToCached.raw [sampleArticle]) = false := ⟨rfl, rfl⟩

/-- C8 amended: a successful (2xx) fetch caches the RAW parsed body under
the request-signature key; `getLatestArticles` re-applies the normalizer
after every `get`, so both the fresh call and a subsequent within-TTL call —
which performs zero network attempts — still return the normalized items. -/
theorem devto_cache_raw_body_renormalized (parseEpoch : String → Int)
    (body : List DevToArticle)
    (attempts attempts2 : Nat → FetchOutcome (List DevToArticle))
    (t0 t1 : Int) (limit : Nat) (st : String)
    (hatt : attempts 0 = .httpResponse 200 st body)
    (hfresh : t1 - t0 < cacheDuration) :
    (getLatestArticles parseEpoch attempts t0 [] limit).1
        = .ok (body.map (normalizeArticle parseEpoch))
    ∧ (getLatestArticles parseEpoch attempts t0 [] limit).2.1
        = [(devtoArticlesKey limit, ⟨.raw body, t0⟩)]
    ∧ (getLatestArticles parseEpoch attempts t0 [] limit).2.2 = 1
    ∧ (getLatestArticles parseEpoch attempts2 t1
        (getLatestArticles parseEpoch attempts t0 [] limit).2.1 limit).1
        = .ok (body.map (normalizeArticle parseEpoch))
    ∧ (getLatestArticles parseEpoch attempts2 t1
        (getLatestArticles parseEpoch attempts t0 [] limit).2.1 limit).2.2 = 0 := by
  have h1 : baseGet "devto" DevToCached.raw devtoUnwrap attempts true
      (devtoArticlesKey limit) t0 3 0 []
      = (.ok body, [(devtoArticlesKey limit, ⟨.raw body, t0⟩)], 1) := by
    rw [baseGet]
    rw [hatt]
    rfl
  have h2 : baseGet "devto" DevToCached.raw devtoUnwrap attempts2 true
      (devtoArticlesKey limit) t1 3 0 [(devtoArticlesKey limit, ⟨.raw body, t0⟩)]
      = (.ok body, [(devtoArticlesKey limit, ⟨.raw body, t0⟩)], 0) := by
    rw [baseGet]
    have hhit : (if true then (clientGetFromCache t1 (devtoArticlesKey limit)
        [(devtoArticlesKey limit, ⟨.raw body, t0⟩)]).bind devtoUnwrap
        else none) = some body := by
      rw [if_pos rfl, clientGetFromCache, mapGet]
      rw [if_pos rfl]
      show (if t1 - t0 < cacheDuration then some (DevToCached.raw body)
        else none).bind devtoUnwrap = some body
      rw [if_pos hfresh]
      rfl
    rw [hhit]
  rw [getLatestArticles, getLatestArticles, h1]
  dsimp only
  rw [h2]
  exact ⟨rfl, rfl, rfl, rfl, rfl⟩

/-- C8 amended witness: concrete article, concrete clock. -/
theorem devto_cache_raw_body_renormalized_witness :
    (getLatestArticles (fun _ => 0)
        (fun _ => .httpResponse 200 "OK" [sampleArticle]) 0 [] 30).1
      = .ok ([sampleArticle].map (normalizeArticle (fun _ => 0)))
    ∧ (getLatestArticles (fun _ => 0)
        (fun _ => .httpResponse 200 "OK" [sampleArticle]) 0 [] 30).2.1
      = [(devtoArticlesKey 30, ⟨.raw [sampleArticle], 0⟩)]
    ∧ (getLatestArticles (fun _ => 0)
        (fun _ => .httpResponse 200 "OK" [sampleArticle]) 0 [] 30).2.2 = 1
    ∧ (getLatestArticles (fun _ => 0) (fun _ => .thrown "no second fetch") 60000
        (getLatestArticles (fun _ => 0)
          (fun _ => .httpResponse 200 "OK" [sampleArticle]) 0 [] 30).2.1 30).1
      = .ok ([sampleArticle].map (normalizeArticle (fun _ => 0)))
    ∧ (getLatestArticles (fun _ => 0) (fun _ => .thrown "no second fetch") 60000
        (getLatestArticles (fun _ => 0)
          (fun _ => .httpResponse 200 "OK" [sampleArticle]) 0 [] 30).2.1 30).2.2
      = 0 :=
  devto_cache_raw_body_renormalized (fun _ => 0) [sampleArticle]
    (fun _ => .httpResponse 200 "OK" [sampleArticle])
    (fun _ => .thrown "no second fetch") 0 60000 30 "OK" rfl (by decide)

end HackerHome
